import Mathlib

/-!
Shallow embedding of the EulerSwap delta-neutral strategy backtest
(backtest.py).

Every price the source manipulates enters the liquidity arithmetic only
through its square root (np.sqrt), so the embedding carries square-root
prices as exact rationals: the source's price of a tick t,
1.0001 ^ t / 10 ^ (decimalsY - decimalsX), is represented by its square
root sqScale * sqBase ^ t, where sqBase stands for sqrt(1.0001) and
sqScale for sqrt(10 ^ (decimalsX - decimalsY)).  Both constants are
irrational, hence abstracted as positive rational parameters of the
configuration; the pool price itself is recovered as the square of the
square-root price.  Comparisons between prices translate verbatim to
comparisons between square-root prices because the square root is
strictly monotone on positives.

Floating-point arithmetic is modelled as exact rational arithmetic.
Where a division by zero is reachable and its result observable
(target_position at a zero borrowed balance), the source's numpy float
semantics — ±inf for a nonzero numerator, NaN for a zero numerator,
RuntimeWarnings suppressed — is written out explicitly as a branch,
since ℚ has no infinities; elsewhere a division by zero falls back to
the Lean convention x / 0 = 0, noted at the definition.

Python's floor division // on integers is Int.fdiv.
-/

/-- Configuration scalars of the backtest (module-level constants in the
source: spacing, bound/trigger tick offsets, delta threshold, start value)
together with the abstracted square-root-price constants and the per-step
hedge compounding factors.  lendFactor stands for
(1 + lending_apy) ^ (1 / (365 * 24 * 12)) and borrowFactor for
(1 + borrowing_apy) ^ (1 / (365 * 24 * 12)); both are irrational reals in
the source, abstracted as rational parameters. -/
structure Config where
  spacing : ℤ
  baseLowerBoundTicks : ℤ
  baseUpperBoundTicks : ℤ
  baseLowerTriggerTicks : ℤ
  baseUpperTriggerTicks : ℤ
  limitBoundTicks : ℤ
  limitTriggerTicks : ℤ
  deltaThreshold : ℚ
  startValue : ℚ
  lendFactor : ℚ
  borrowFactor : ℚ
  sqScale : ℚ
  sqBase : ℚ
deriving DecidableEq

/-- Square-root price of a tick: sqrt(1.0001 ^ t / 10 ^ (decimalsY - decimalsX))
represented as sqScale * sqBase ^ t (see the module docstring). -/
def sqrtPrice (cfg : Config) (t : ℤ) : ℚ :=
  cfg.sqScale * cfg.sqBase ^ t

/-- One swap observation: pool tick, total in-range pool liquidity and the
fees collected at that swap (columns of swaps.csv used by the backtest). -/
structure Swap where
  tick : ℤ
  liquidity : ℚ
  feesX : ℚ
  feesY : ℚ
deriving DecidableEq

/-- The per-step carried strategy state: the columns of the result table
that row i+1 inherits from the processing of row i. -/
structure Strat where
  outsideX : ℚ
  outsideY : ℚ
  baseLower : ℤ
  baseUpper : ℤ
  baseLiquidity : ℚ
  limitLower : ℤ
  limitUpper : ℤ
  limitLiquidity : ℚ
  lent : ℚ
  borrowed : ℚ
deriving DecidableEq

/-- Recorded rebalance reason (the nullable string column of the source,
as a tagged enum). -/
inductive Reason where
  | none
  | limit_trigger
  | base_trigger
  | delta
  | initialization
deriving DecidableEq

/-- get_quantities of the source, on square-root prices: the conditional
price clamps the pool price into the range (written with the source's
indicator sum), then x = L * (1/sqrt(c) - 1/sqrt(upper)),
y = L * (sqrt(c) - sqrt(lower)).  Arguments sa, sb, sp are the square
roots of lower_price, upper_price, pool_price. -/
def get_quantities (liquidity sa sb sp : ℚ) : ℚ × ℚ :=
  let sc := sa * (if sp ≤ sa then 1 else 0)
      + sp * (if sa < sp ∧ sp < sb then 1 else 0)
      + sb * (if sb ≤ sp then 1 else 0)
  (liquidity * (1 / sc - 1 / sb), liquidity * (sc - sa))

/-- mint_position of the source, on square-root prices: in range, first
assume token y is the binding constraint, and fall back to x if the
implied x requirement exceeds the available x; below range the position
is pure x, above range pure y.  Returns (liquidity, usedX, usedY). -/
def mint_position (x y sa sb sp : ℚ) : ℚ × ℚ × ℚ :=
  if sa < sp ∧ sp < sb then
    let py := y
    let pl := py / (sp - sa)
    let px := pl * (1 / sp - 1 / sb)
    if x < px then
      let px2 := x
      let pl2 := px2 / (1 / sp - 1 / sb)
      let py2 := pl2 * (sp - sa)
      (pl2, px2, py2)
    else
      (pl, px, py)
  else if sp ≤ sa then
    (x / (1 / sa - 1 / sb), x, 0)
  else
    (y / (sb - sa), 0, y)

/-- Trigger evaluation (lines 106 and 111 of the source): triggered when
the pool tick is NOT inside the half-open trigger band. -/
def is_triggered (lowerTrig upperTrig poolTick : ℤ) : Bool :=
  ! (decide (lowerTrig ≤ poolTick) && decide (poolTick < upperTrig))

/-- Protocol max tick aligned down to spacing:
887272 // spacing * spacing. -/
def maxAlignedTick (cfg : Config) : ℤ :=
  (887272 : ℤ).fdiv cfg.spacing * cfg.spacing

/-- Protocol min tick aligned up to spacing:
-887272 // spacing * spacing + spacing. -/
def minAlignedTick (cfg : Config) : ℤ :=
  (-887272 : ℤ).fdiv cfg.spacing * cfg.spacing + cfg.spacing

/-- current_position of the source (line 124): +1 when the base upper
bound sits at the aligned max tick, -1 when the base lower bound sits at
the aligned min tick, else 0. -/
def current_position (cfg : Config) (baseLower baseUpper : ℤ) : ℤ :=
  (if baseUpper = maxAlignedTick cfg then 1 else 0)
    - (if baseLower = minAlignedTick cfg then 1 else 0)

/-- target_position of the source (line 125):
1*(delta/borrowed < -threshold) - 1*(threshold < delta/borrowed).
The source performs the division delta / borrowed unguarded.  ℚ has no
infinities, so the zero-denominator case is written out explicitly with
numpy's float semantics (RuntimeWarnings are suppressed by line 7 of the
source): delta / 0 is +inf for delta > 0, hence threshold < +inf is true
and -inf < -threshold false, giving -1; it is -inf for delta < 0, giving
+1; and it is NaN for delta = 0, making both comparisons false and
giving 0 (for any finite threshold). -/
def target_position (threshold delta borrowed : ℚ) : ℤ :=
  if borrowed = 0 then
    (if delta < 0 then 1 else 0) - (if 0 < delta then 1 else 0)
  else
    (if delta / borrowed < -threshold then 1 else 0)
      - (if threshold < delta / borrowed then 1 else 0)

/-- Fee attribution (lines 95-99 of the source): for each swap in the
interval, the strategy's active liquidity is the base liquidity if the
swap tick is in the base range plus the limit liquidity if it is in the
limit range; its share of that swap's fees is
active / (active + pool liquidity); shares are summed over the interval.
A swap with zero active and zero pool liquidity would give NaN in the
source (0/0, warnings suppressed); here the share is 0 by the Lean
convention — the case never arises for pool data with positive
liquidity. -/
def gamma_fees (baseLiquidity : ℚ) (baseLower baseUpper : ℤ)
    (limitLiquidity : ℚ) (limitLower limitUpper : ℤ)
    (swaps : List Swap) : ℚ × ℚ :=
  swaps.foldl
    (fun acc sw =>
      let g := baseLiquidity
            * (if baseLower ≤ sw.tick ∧ sw.tick < baseUpper then 1 else 0)
          + limitLiquidity
            * (if limitLower ≤ sw.tick ∧ sw.tick < limitUpper then 1 else 0)
      let share := g / (g + sw.liquidity)
      (acc.1 + share * sw.feesX, acc.2 + share * sw.feesY))
    (0, 0)

/-- Rebalance decision (lines 129-145 of the source): the reason field is
overwritten in evaluation order limit_trigger, base_trigger, delta,
initialization; any true condition sets the rebalance flag. -/
def decide_rebalance (limitTriggered baseTriggered deltaTriggered : Bool)
    (i : ℕ) : Bool × Reason :=
  let r := (false, Reason.none)
  let r := if limitTriggered then (true, Reason.limit_trigger) else r
  let r := if baseTriggered then (true, Reason.base_trigger) else r
  let r := if deltaTriggered then (true, Reason.delta) else r
  let r := if i = 0 then (true, Reason.initialization) else r
  r

/-- New base bounds (lines 160-161 of the source), written with the
source's indicator products:
lower = minAligned*(tp = -1) + ((poolTick - baseLowerBoundTicks)//spacing*spacing)*(tp in [0,1]),
upper = ((poolTick + baseUpperBoundTicks)//spacing*spacing)*(tp in [-1,0]) + maxAligned*(tp = 1). -/
def new_base_bounds (cfg : Config) (poolTick tp : ℤ) : ℤ × ℤ :=
  ((if tp = -1 then minAlignedTick cfg else 0)
     + (if tp = 0 ∨ tp = 1 then
          (poolTick - cfg.baseLowerBoundTicks).fdiv cfg.spacing * cfg.spacing
        else 0),
   (if tp = -1 ∨ tp = 0 then
      (poolTick + cfg.baseUpperBoundTicks).fdiv cfg.spacing * cfg.spacing
    else 0)
     + (if tp = 1 then maxAlignedTick cfg else 0))

/-- Result of the burn-then-remint block. -/
structure RebResult where
  baseLower : ℤ
  baseUpper : ℤ
  baseLiquidity : ℚ
  baseX : ℚ
  baseY : ℚ
  limitLower : ℤ
  limitUpper : ℤ
  limitLiquidity : ℚ
  limitX : ℚ
  limitY : ℚ
  outsideX : ℚ
  outsideY : ℚ
deriving DecidableEq

/-- The rebalance block (lines 151-191 of the source): burn both
positions into the outside reserve; recompute base bounds when the
recorded reason is base_trigger, delta or initialization; re-mint the
base from the outside reserve; recompute the limit bounds from the
target position, clamp them around the pool tick, collapse them to a
single-sided range according to which token remains; re-mint the limit. -/
def rebalance_block (cfg : Config) (poolTick : ℤ) (sqPool : ℚ) (tp : ℤ)
    (reason : Reason) (baseLower baseUpper : ℤ)
    (baseX baseY limitX limitY outsideX outsideY : ℚ) : RebResult :=
  let outX := outsideX + baseX + limitX
  let outY := outsideY + baseY + limitY
  let newBaseLower :=
    if reason = Reason.base_trigger ∨ reason = Reason.delta
        ∨ reason = Reason.initialization then
      (new_base_bounds cfg poolTick tp).1
    else baseLower
  let newBaseUpper :=
    if reason = Reason.base_trigger ∨ reason = Reason.delta
        ∨ reason = Reason.initialization then
      (new_base_bounds cfg poolTick tp).2
    else baseUpper
  let mintBase := mint_position outX outY
      (sqrtPrice cfg newBaseLower) (sqrtPrice cfg newBaseUpper) sqPool
  let outX2 := outX - mintBase.2.1
  let outY2 := outY - mintBase.2.2
  let ll0 :=
    (if tp = -1 then minAlignedTick cfg else 0)
      + (if tp = 0 ∨ tp = 1 then
           (poolTick - cfg.limitBoundTicks).fdiv cfg.spacing * cfg.spacing
         else 0)
  let lu0 :=
    (if tp = -1 ∨ tp = 0 then
       (poolTick + cfg.limitBoundTicks).fdiv cfg.spacing * cfg.spacing
     else 0)
      + (if tp = 1 then maxAlignedTick cfg else 0)
  let ll1 := min ll0 (poolTick.fdiv cfg.spacing * cfg.spacing - cfg.spacing)
  let lu1 := max lu0 (poolTick.fdiv cfg.spacing * cfg.spacing + 2 * cfg.spacing)
  let newLimitLower :=
    if outY2 = 0 then poolTick.fdiv cfg.spacing * cfg.spacing + cfg.spacing
    else ll1
  let newLimitUpper :=
    if outY2 = 0 then lu1
    else poolTick.fdiv cfg.spacing * cfg.spacing
  let mintLimit := mint_position outX2 outY2
      (sqrtPrice cfg newLimitLower) (sqrtPrice cfg newLimitUpper) sqPool
  let outX3 := outX2 - mintLimit.2.1
  let outY3 := outY2 - mintLimit.2.2
  { baseLower := newBaseLower, baseUpper := newBaseUpper,
    baseLiquidity := mintBase.1, baseX := mintBase.2.1, baseY := mintBase.2.2,
    limitLower := newLimitLower, limitUpper := newLimitUpper,
    limitLiquidity := mintLimit.1, limitX := mintLimit.2.1,
    limitY := mintLimit.2.2,
    outsideX := outX3, outsideY := outY3 }

/-- One iteration of the simulation loop (lines 69-210 of the source):
compute position token quantities at the step's pool price, attribute
fees into the outside reserve, evaluate both triggers, evaluate the
hedge bias, decide the rebalance and its recorded reason (step 0 forces
initialization and seeds the hedge), run the burn-then-remint block when
rebalancing, and compound the lent and borrowed balances.  Returns the
next carried state together with the recorded (rebalance, reason). -/
def step (cfg : Config) (i : ℕ) (poolTick : ℤ) (swaps : List Swap)
    (s : Strat) : Strat × Bool × Reason :=
  let sqPool := sqrtPrice cfg poolTick
  let qBase := get_quantities s.baseLiquidity
      (sqrtPrice cfg s.baseLower) (sqrtPrice cfg s.baseUpper) sqPool
  let qLimit := get_quantities s.limitLiquidity
      (sqrtPrice cfg s.limitLower) (sqrtPrice cfg s.limitUpper) sqPool
  let fees := gamma_fees s.baseLiquidity s.baseLower s.baseUpper
      s.limitLiquidity s.limitLower s.limitUpper swaps
  let outsideX0 := s.outsideX + fees.1
  let outsideY0 := s.outsideY + fees.2
  let baseTriggered := is_triggered (s.baseLower - cfg.baseLowerTriggerTicks)
      (s.baseUpper + cfg.baseUpperTriggerTicks) poolTick
  let limitTriggered := is_triggered (s.limitLower - cfg.limitTriggerTicks)
      (s.limitUpper + cfg.limitTriggerTicks) poolTick
  let delta := -s.borrowed + qBase.1 + qLimit.1 + outsideX0
  let cp := current_position cfg s.baseLower s.baseUpper
  let tp := target_position cfg.deltaThreshold delta s.borrowed
  let rr := decide_rebalance limitTriggered baseTriggered (decide (cp ≠ tp)) i
  let lent := if i = 0 then cfg.startValue * 2 / 3 else s.lent
  let borrowed := if i = 0 then lent / 2 / (sqPool * sqPool) else s.borrowed
  let outsideX := if i = 0 then borrowed else outsideX0
  let outsideY := if i = 0 then cfg.startValue - lent else outsideY0
  let next :=
    if rr.1 then
      let r := rebalance_block cfg poolTick sqPool tp rr.2
          s.baseLower s.baseUpper
          qBase.1 qBase.2 qLimit.1 qLimit.2 outsideX outsideY
      { outsideX := r.outsideX, outsideY := r.outsideY,
        baseLower := r.baseLower, baseUpper := r.baseUpper,
        baseLiquidity := r.baseLiquidity,
        limitLower := r.limitLower, limitUpper := r.limitUpper,
        limitLiquidity := r.limitLiquidity,
        lent := lent * cfg.lendFactor,
        borrowed := borrowed * cfg.borrowFactor }
    else
      { s with
          outsideX := outsideX
          outsideY := outsideY
          lent := lent * cfg.lendFactor
          borrowed := borrowed * cfg.borrowFactor }
  (next, rr.1, rr.2)

/-! ## Round-trip of mint_position and get_quantities -/

/-- Helper: minting and then reading the position quantities back at the
same pool price reproduces exactly the used amounts, over exact rational
arithmetic on square-root prices. -/
theorem mint_get_quantities (x y sa sb sp : ℚ)
    (ha : 0 < sa) (hab : sa < sb) (hp : 0 < sp) :
    get_quantities (mint_position x y sa sb sp).1 sa sb sp
      = ((mint_position x y sa sb sp).2.1, (mint_position x y sa sb sp).2.2) := by
  have hb : 0 < sb := ha.trans hab
  by_cases h1 : sa < sp ∧ sp < sb
  · have hsps : 0 < sp - sa := sub_pos.mpr h1.1
    have hinv : (1 : ℚ) / sb < 1 / sp := one_div_lt_one_div_of_lt hp h1.2
    have hinvd : 0 < 1 / sp - 1 / sb := sub_pos.mpr hinv
    by_cases h2 : x < y / (sp - sa) * (1 / sp - 1 / sb)
    · simp only [mint_position, get_quantities, if_pos h1, if_pos h2,
        if_neg (not_le.mpr h1.1), if_neg (not_le.mpr h1.2),
        mul_one, mul_zero, add_zero, zero_add]
      rw [Prod.mk.injEq]
      exact ⟨div_mul_cancel₀ x hinvd.ne', rfl⟩
    · simp only [mint_position, get_quantities, if_pos h1, if_neg h2,
        if_neg (not_le.mpr h1.1), if_neg (not_le.mpr h1.2),
        mul_one, mul_zero, add_zero, zero_add]
      rw [Prod.mk.injEq]
      exact ⟨rfl, div_mul_cancel₀ y hsps.ne'⟩
  · by_cases h3 : sp ≤ sa
    · have hnb : ¬ sb ≤ sp := not_le.mpr (lt_of_le_of_lt h3 hab)
      have hd : 0 < 1 / sa - 1 / sb := sub_pos.mpr (one_div_lt_one_div_of_lt ha hab)
      simp only [mint_position, get_quantities, if_neg h1, if_pos h3, if_neg hnb,
        mul_one, mul_zero, add_zero, zero_add]
      rw [Prod.mk.injEq]
      exact ⟨div_mul_cancel₀ x hd.ne', by rw [sub_self, mul_zero]⟩
    · have hbs : sb ≤ sp := by
        rcases not_and_or.mp h1 with h | h
        · exact absurd (not_le.mp h3) h
        · exact not_lt.mp h
      have hds : 0 < sb - sa := sub_pos.mpr hab
      simp only [mint_position, get_quantities, if_neg h1, if_neg h3, if_pos hbs,
        if_neg (not_and_or.mpr (Or.inr (not_lt.mpr hbs))),
        mul_one, mul_zero, add_zero, zero_add]
      rw [Prod.mk.injEq]
      refine ⟨?_, div_mul_cancel₀ y hds.ne'⟩
      rw [sub_self, mul_zero]

/-- Claim C2: for x, y ≥ 0, a price range with 0 < lower < upper and a
positive pool price (all represented through their square roots sa, sb,
sp), if mint_position returns (liquidity, usedX, usedY) then
get_quantities on that liquidity returns exactly (usedX, usedY), over
exact rational arithmetic. -/
theorem mint_round_trip (x y sa sb sp liquidity usedX usedY : ℚ)
    (hx : 0 ≤ x) (hy : 0 ≤ y) (ha : 0 < sa) (hab : sa < sb) (hp : 0 < sp)
    (hmint : mint_position x y sa sb sp = (liquidity, usedX, usedY)) :
    get_quantities liquidity sa sb sp = (usedX, usedY) := by
  have h := mint_get_quantities x y sa sb sp ha hab hp
  rw [hmint] at h
  exact h

/-- Witness for C2 at x = 3, y = 3, sa = 1, sb = 2, sp = 3/2: the mint
returns (6, 1, 3) and the round-trip reproduces (1, 3). -/
theorem mint_round_trip_witness :
    mint_position 3 3 1 2 (3 / 2) = (6, 1, 3)
    ∧ get_quantities 6 1 2 (3 / 2) = (1, 3) := by
  have hm : mint_position 3 3 1 2 (3 / 2) = ((6 : ℚ), (1 : ℚ), (3 : ℚ)) := by
    norm_num [mint_position]
  exact ⟨hm, mint_round_trip 3 3 1 2 (3 / 2) 6 1 3 (by norm_num) (by norm_num)
    (by norm_num) (by norm_num) (by norm_num) hm⟩

/-- Claim C8: for x, y ≥ 0, a range with 0 < lower < upper and a positive
pool price (square roots sa, sb, sp), mint_position uses at most the
supplied balances, so the caller's leftovers are nonnegative; moreover a
pool price at or below the range uses no y, and at or above the range
uses no x. -/
theorem mint_used_within_balances (x y sa sb sp : ℚ)
    (hx : 0 ≤ x) (hy : 0 ≤ y) (ha : 0 < sa) (hab : sa < sb) (hp : 0 < sp) :
    (mint_position x y sa sb sp).2.1 ≤ x
    ∧ (mint_position x y sa sb sp).2.2 ≤ y
    ∧ (sp ≤ sa → (mint_position x y sa sb sp).2.2 = 0)
    ∧ (sb ≤ sp → (mint_position x y sa sb sp).2.1 = 0) := by
  have hb : 0 < sb := ha.trans hab
  by_cases h1 : sa < sp ∧ sp < sb
  · have hsps : 0 < sp - sa := sub_pos.mpr h1.1
    have hinv : (1 : ℚ) / sb < 1 / sp := one_div_lt_one_div_of_lt hp h1.2
    have hinvd : 0 < 1 / sp - 1 / sb := sub_pos.mpr hinv
    have hlow : ¬ sp ≤ sa := not_le.mpr h1.1
    have hhigh : ¬ sb ≤ sp := not_le.mpr h1.2
    by_cases h2 : x < y / (sp - sa) * (1 / sp - 1 / sb)
    · simp only [mint_position, if_pos h1, if_pos h2]
      refine ⟨le_refl x, ?_, fun h => absurd h hlow, fun h => absurd h hhigh⟩
      have key : x * (sp - sa) < y * (1 / sp - 1 / sb) := by
        have step1 : x * (sp - sa) < y / (sp - sa) * (1 / sp - 1 / sb) * (sp - sa) :=
          mul_lt_mul_of_pos_right h2 hsps
        have step2 : y / (sp - sa) * (1 / sp - 1 / sb) * (sp - sa)
            = y * (1 / sp - 1 / sb) := by
          field_simp
          ring
        rwa [step2] at step1
      rw [div_mul_eq_mul_div, div_le_iff₀ hinvd]
      exact key.le
    · simp only [mint_position, if_pos h1, if_neg h2]
      exact ⟨not_lt.mp h2, le_refl y, fun h => absurd h hlow, fun h => absurd h hhigh⟩
  · by_cases h3 : sp ≤ sa
    · have hhigh : ¬ sb ≤ sp := not_le.mpr (lt_of_le_of_lt h3 hab)
      simp only [mint_position, if_neg h1, if_pos h3]
      exact ⟨le_refl x, hy, fun _ => trivial, fun h => absurd h hhigh⟩
    · simp only [mint_position, if_neg h1, if_neg h3]
      exact ⟨hx, le_refl y, fun h => absurd h h3, fun _ => trivial⟩

/-- Witness for C8 at x = 5, y = 7, sa = 1, sb = 2, sp = 1/2 (pool at or
below the range): usedX = 5 ≤ 5, usedY = 0 ≤ 7, and the one-sided
conclusions hold. -/
theorem mint_used_within_balances_witness :
    (mint_position 5 7 1 2 (1 / 2)).2.1 ≤ 5
    ∧ (mint_position 5 7 1 2 (1 / 2)).2.2 ≤ 7
    ∧ ((1 : ℚ) / 2 ≤ 1 → (mint_position 5 7 1 2 (1 / 2)).2.2 = 0)
    ∧ ((2 : ℚ) ≤ 1 / 2 → (mint_position 5 7 1 2 (1 / 2)).2.1 = 0) :=
  mint_used_within_balances 5 7 1 2 (1 / 2) (by norm_num) (by norm_num)
    (by norm_num) (by norm_num) (by norm_num)

/-! ## Conservation through the burn-then-remint sequence -/

/-- Helper: minting first out of (bx, by2) and then out of the leftovers,
the minted quantities read back at the pool price plus the final outside
reserve add up to the original (bx, by2), coordinatewise. -/
theorem two_mints_conserve (bx by2 a b c d sp : ℚ)
    (ha : 0 < a) (hab : a < b) (hc : 0 < c) (hcd : c < d) (hp : 0 < sp) :
    (get_quantities (mint_position bx by2 a b sp).1 a b sp).1
      + (get_quantities (mint_position (bx - (mint_position bx by2 a b sp).2.1)
          (by2 - (mint_position bx by2 a b sp).2.2) c d sp).1 c d sp).1
      + (bx - (mint_position bx by2 a b sp).2.1
          - (mint_position (bx - (mint_position bx by2 a b sp).2.1)
              (by2 - (mint_position bx by2 a b sp).2.2) c d sp).2.1) = bx
    ∧ (get_quantities (mint_position bx by2 a b sp).1 a b sp).2
      + (get_quantities (mint_position (bx - (mint_position bx by2 a b sp).2.1)
          (by2 - (mint_position bx by2 a b sp).2.2) c d sp).1 c d sp).2
      + (by2 - (mint_position bx by2 a b sp).2.2
          - (mint_position (bx - (mint_position bx by2 a b sp).2.1)
              (by2 - (mint_position bx by2 a b sp).2.2) c d sp).2.2) = by2 := by
  have r1 := mint_get_quantities bx by2 a b sp ha hab hp
  have r2 := mint_get_quantities (bx - (mint_position bx by2 a b sp).2.1)
      (by2 - (mint_position bx by2 a b sp).2.2) c d sp hc hcd hp
  rw [r1, r2]
  constructor <;> ring

/-- Claim C1: the burn-then-remint block conserves token holdings at the
fixed pool price: with both re-minted positions' token quantities read
back through get_quantities at the step's (square-root) pool price, the
X sum and the Y sum over base position, limit position and outside
reserve equal the corresponding sums immediately before the burn
(baseX + limitX + outsideX and baseY + limitY + outsideY), provided the
re-minted ranges are well-formed (positive, strictly ordered square-root
bound prices) and the pool price is positive. -/
theorem rebalance_block_conserves (cfg : Config) (poolTick : ℤ) (sqPool : ℚ)
    (tp : ℤ) (reason : Reason) (baseLower baseUpper : ℤ)
    (baseX baseY limitX limitY outsideX outsideY : ℚ) :
    ∀ r, r = rebalance_block cfg poolTick sqPool tp reason baseLower baseUpper
        baseX baseY limitX limitY outsideX outsideY →
    0 < sqrtPrice cfg r.baseLower →
    sqrtPrice cfg r.baseLower < sqrtPrice cfg r.baseUpper →
    0 < sqrtPrice cfg r.limitLower →
    sqrtPrice cfg r.limitLower < sqrtPrice cfg r.limitUpper →
    0 < sqPool →
    (get_quantities r.baseLiquidity (sqrtPrice cfg r.baseLower)
        (sqrtPrice cfg r.baseUpper) sqPool).1
      + (get_quantities r.limitLiquidity (sqrtPrice cfg r.limitLower)
          (sqrtPrice cfg r.limitUpper) sqPool).1
      + r.outsideX = baseX + limitX + outsideX
    ∧ (get_quantities r.baseLiquidity (sqrtPrice cfg r.baseLower)
        (sqrtPrice cfg r.baseUpper) sqPool).2
      + (get_quantities r.limitLiquidity (sqrtPrice cfg r.limitLower)
          (sqrtPrice cfg r.limitUpper) sqPool).2
      + r.outsideY = baseY + limitY + outsideY := by
  intro r hr h1 h2 h3 h4 h5
  subst hr
  simp only [rebalance_block] at h1 h2 h3 h4 ⊢
  have core := two_mints_conserve (outsideX + baseX + limitX)
      (outsideY + baseY + limitY) _ _ _ _ sqPool h1 h2 h3 h4 h5
  constructor
  · have := core.1
    linarith [this]
  · have := core.2
    linarith [this]

/-- Shared witness configuration: spacing 1, base bound offsets 2, trigger
offsets 0, limit bound offset 3, threshold 1/10, and square-root price
base 2 (so that sqrtPrice cfgW t = 2 ^ t). -/
def cfgW : Config :=
  { spacing := 1, baseLowerBoundTicks := 2, baseUpperBoundTicks := 2,
    baseLowerTriggerTicks := 0, baseUpperTriggerTicks := 0,
    limitBoundTicks := 3, limitTriggerTicks := 0,
    deltaThreshold := 1 / 10, startValue := 1,
    lendFactor := 2, borrowFactor := 3, sqScale := 1, sqBase := 2 }

/-- Concrete run of the rebalance block used by the conservation witness:
pool tick 0, square-root pool price 1, target position 0, recorded reason
limit_trigger, carried base bounds (-2, 2), all pre-burn token amounts 1. -/
def rW : RebResult :=
  rebalance_block cfgW 0 1 0 Reason.limit_trigger (-2) 2 1 1 1 1 1 1

/-- Witness for C1: at the concrete rebalance rW both re-minted ranges are
well-formed and the X and Y sums after the burn-then-remint equal the
pre-burn sums 1 + 1 + 1. -/
theorem rebalance_block_conserves_witness :
    0 < sqrtPrice cfgW rW.baseLower
    ∧ sqrtPrice cfgW rW.baseLower < sqrtPrice cfgW rW.baseUpper
    ∧ 0 < sqrtPrice cfgW rW.limitLower
    ∧ sqrtPrice cfgW rW.limitLower < sqrtPrice cfgW rW.limitUpper
    ∧ (0 : ℚ) < 1
    ∧ ((get_quantities rW.baseLiquidity (sqrtPrice cfgW rW.baseLower)
          (sqrtPrice cfgW rW.baseUpper) 1).1
        + (get_quantities rW.limitLiquidity (sqrtPrice cfgW rW.limitLower)
            (sqrtPrice cfgW rW.limitUpper) 1).1
        + rW.outsideX = 1 + 1 + 1
      ∧ (get_quantities rW.baseLiquidity (sqrtPrice cfgW rW.baseLower)
          (sqrtPrice cfgW rW.baseUpper) 1).2
        + (get_quantities rW.limitLiquidity (sqrtPrice cfgW rW.limitLower)
            (sqrtPrice cfgW rW.limitUpper) 1).2
        + rW.outsideY = 1 + 1 + 1) := by
  have hre : ¬ (Reason.limit_trigger = Reason.base_trigger
      ∨ Reason.limit_trigger = Reason.delta
      ∨ Reason.limit_trigger = Reason.initialization) := by decide
  have h1 : 0 < sqrtPrice cfgW rW.baseLower := by
    norm_num [rW, rebalance_block, mint_position, sqrtPrice, cfgW,
      minAlignedTick, maxAlignedTick, hre]
  have h2 : sqrtPrice cfgW rW.baseLower < sqrtPrice cfgW rW.baseUpper := by
    norm_num [rW, rebalance_block, mint_position, sqrtPrice, cfgW,
      minAlignedTick, maxAlignedTick, hre]
  have h3 : 0 < sqrtPrice cfgW rW.limitLower := by
    norm_num [rW, rebalance_block, mint_position, sqrtPrice, cfgW,
      minAlignedTick, maxAlignedTick, hre]
  have h4 : sqrtPrice cfgW rW.limitLower < sqrtPrice cfgW rW.limitUpper := by
    norm_num [rW, rebalance_block, mint_position, sqrtPrice, cfgW,
      minAlignedTick, maxAlignedTick, hre]
  exact ⟨h1, h2, h3, h4, by norm_num,
    rebalance_block_conserves cfgW 0 1 0 Reason.limit_trigger (-2) 2
      1 1 1 1 1 1 rW rfl h1 h2 h3 h4 (by norm_num)⟩

/-! ## Trigger evaluation, rebalance reasons, base bound recomputation -/

/-- Claim C3: with lowerTrigger = lowerBound - lowerOffset and
upperTrigger = upperBound + upperOffset (any integer offsets, negative
included), the trigger evaluation reports triggered exactly when the
pool tick lies outside the half-open band [lowerTrigger, upperTrigger);
in particular, when the band is nonempty it reports not-triggered at
tick = lowerTrigger and at tick = upperTrigger - 1, and triggered at
tick = lowerTrigger - 1 and at tick = upperTrigger. -/
theorem trigger_band_correct (lowerBound upperBound lowerOffset upperOffset poolTick : ℤ)
    (hband : lowerBound - lowerOffset < upperBound + upperOffset) :
    (is_triggered (lowerBound - lowerOffset) (upperBound + upperOffset) poolTick = true
      ↔ (poolTick < lowerBound - lowerOffset ∨ upperBound + upperOffset ≤ poolTick))
    ∧ is_triggered (lowerBound - lowerOffset) (upperBound + upperOffset)
        (lowerBound - lowerOffset) = false
    ∧ is_triggered (lowerBound - lowerOffset) (upperBound + upperOffset)
        (lowerBound - lowerOffset - 1) = true
    ∧ is_triggered (lowerBound - lowerOffset) (upperBound + upperOffset)
        (upperBound + upperOffset - 1) = false
    ∧ is_triggered (lowerBound - lowerOffset) (upperBound + upperOffset)
        (upperBound + upperOffset) = true := by
  refine ⟨?_, ?_, ?_, ?_, ?_⟩ <;> simp [is_triggered] <;> omega

/-- Witness for C3 at lowerBound = 0, upperBound = 10 and negative
offsets -3, -3 (trigger band [3, 7) strictly inside the position
bounds): the band is nonempty and all five conclusions hold. -/
theorem trigger_band_correct_witness :
    (0 : ℤ) - (-3) < 10 + (-3)
    ∧ ((is_triggered ((0 : ℤ) - (-3)) (10 + (-3)) 5 = true
        ↔ ((5 : ℤ) < 0 - (-3) ∨ 10 + (-3) ≤ 5))
      ∧ is_triggered ((0 : ℤ) - (-3)) (10 + (-3)) ((0 : ℤ) - (-3)) = false
      ∧ is_triggered ((0 : ℤ) - (-3)) (10 + (-3)) ((0 : ℤ) - (-3) - 1) = true
      ∧ is_triggered ((0 : ℤ) - (-3)) (10 + (-3)) (10 + (-3) - 1) = false
      ∧ is_triggered ((0 : ℤ) - (-3)) (10 + (-3)) (10 + (-3)) = true) :=
  ⟨by decide, trigger_band_correct 0 10 (-3) (-3) 5 (by decide)⟩

/-- Claim C4 (code bug): the source computes delta / borrowed at line 125
without any guard; with borrowed = 0 (as at step 0, where the hedge is
seeded only after this evaluation, and where delta is exactly 0 since
both liquidities and the outside reserves are still zero) the program
raises no DegenerateHedgeState error and simply proceeds with a value:
the NaN ratio at delta = 0 yields target 0, and the ±inf ratios at
nonzero delta yield ∓1 — for every threshold, a bias value is produced
rather than a failure. -/
theorem target_position_zero_borrowed_no_error (threshold delta : ℚ) :
    (delta = 0 → target_position threshold delta 0 = 0)
    ∧ (0 < delta → target_position threshold delta 0 = -1)
    ∧ (delta < 0 → target_position threshold delta 0 = 1) := by
  refine ⟨?_, ?_, ?_⟩
  · intro h
    subst h
    norm_num [target_position]
  · intro h
    simp [target_position, h, not_lt.mpr h.le]
  · intro h
    simp [target_position, h, not_lt.mpr h.le]

/-- Witness for C4 at the source's threshold 0.1 and the actual step-0
state delta = 0 with borrowed = 0: the unguarded evaluation returns the
bias 0 instead of failing the run. -/
theorem target_position_zero_borrowed_no_error_witness :
    target_position (1 / 10) 0 0 = 0 :=
  (target_position_zero_borrowed_no_error (1 / 10) 0).1 rfl

/-- Claim C5: the recorded reason follows the source's overwrite order
(limit_trigger, then base_trigger, then delta, then initialization):
delta overrides base_trigger overrides limit_trigger, step 0 always
records initialization, any true condition forces rebalance = true, and
with no condition and i there is no 0 the step records (false, none). -/
theorem rebalance_reason_priority (lt bt dt : Bool) (i : ℕ) :
    (i = 0 → decide_rebalance lt bt dt i = (true, Reason.initialization))
    ∧ (i ≠ 0 → dt = true → decide_rebalance lt bt dt i = (true, Reason.delta))
    ∧ (i ≠ 0 → dt = false → bt = true →
        decide_rebalance lt bt dt i = (true, Reason.base_trigger))
    ∧ (i ≠ 0 → dt = false → bt = false → lt = true →
        decide_rebalance lt bt dt i = (true, Reason.limit_trigger))
    ∧ ((lt = true ∨ bt = true ∨ dt = true) → (decide_rebalance lt bt dt i).1 = true)
    ∧ (i ≠ 0 → lt = false → bt = false → dt = false →
        decide_rebalance lt bt dt i = (false, Reason.none)) := by
  cases lt <;> cases bt <;> cases dt <;> by_cases hi : i = 0 <;>
    simp [decide_rebalance, hi]

/-- Witness for C5 at i = 3 with all three conditions true: the recorded
reason is delta (overriding base_trigger and limit_trigger) and the
rebalance flag is set. -/
theorem rebalance_reason_priority_witness :
    decide_rebalance true true true 3 = (true, Reason.delta) :=
  (rebalance_reason_priority true true true 3).2.1 (by decide) rfl

/-- Configuration carrying the source's module-level strategy constants
(lines 250-266 of backtest.py): spacing 60, base bound offsets 300,
base trigger offsets -30, limit bound offset 400, limit trigger offset
150, delta threshold 0.1. -/
def cfgSrc : Config :=
  { spacing := 60, baseLowerBoundTicks := 300, baseUpperBoundTicks := 300,
    baseLowerTriggerTicks := -30, baseUpperTriggerTicks := -30,
    limitBoundTicks := 400, limitTriggerTicks := 150,
    deltaThreshold := 1 / 10, startValue := 1,
    lendFactor := 1, borrowFactor := 1, sqScale := 1, sqBase := 2 }

/-- Counterexample for C7 as stated: at cfgSrc, pool tick 0 and
targetPosition +1 the code's new base lower bound is
(0 - 300) // 60 * 60 = -300, whereas the claim's formula
(poolTick + upperOffset) rounded down to spacing gives
(0 + 300) // 60 * 60 = 300; the two disagree. -/
theorem new_base_bounds_plus_one_mismatch :
    (new_base_bounds cfgSrc 0 1).1 = -300
    ∧ ((0 : ℤ) + cfgSrc.baseUpperBoundTicks).fdiv cfgSrc.spacing * cfgSrc.spacing = 300
    ∧ (new_base_bounds cfgSrc 0 1).1
        ≠ ((0 : ℤ) + cfgSrc.baseUpperBoundTicks).fdiv cfgSrc.spacing * cfgSrc.spacing := by
  refine ⟨?_, ?_, ?_⟩ <;> decide

/-- Claim C7 (amended): base bounds recomputed from targetPosition — at
+1 the base spans from (poolTick - lowerOffset) rounded down to spacing
(not poolTick + upperOffset) up to the protocol max aligned tick; at -1
from the protocol min aligned tick up to (poolTick + upperOffset)
rounded down to spacing; at 0 both bounds are poolTick - lowerOffset and
poolTick + upperOffset, each rounded down to spacing. -/
theorem new_base_bounds_by_target (cfg : Config) (poolTick : ℤ) :
    new_base_bounds cfg poolTick 1
      = ((poolTick - cfg.baseLowerBoundTicks).fdiv cfg.spacing * cfg.spacing,
         maxAlignedTick cfg)
    ∧ new_base_bounds cfg poolTick (-1)
      = (minAlignedTick cfg,
         (poolTick + cfg.baseUpperBoundTicks).fdiv cfg.spacing * cfg.spacing)
    ∧ new_base_bounds cfg poolTick 0
      = ((poolTick - cfg.baseLowerBoundTicks).fdiv cfg.spacing * cfg.spacing,
         (poolTick + cfg.baseUpperBoundTicks).fdiv cfg.spacing * cfg.spacing) := by
  refine ⟨?_, ?_, ?_⟩ <;> norm_num [new_base_bounds]

/-! ## Frame properties of the simulation step -/

/-- Helper: a recorded reason of limit_trigger can only arise off step 0
with the delta and base conditions false (and the rebalance flag set). -/
theorem decide_rebalance_limit_inv (lt bt dt : Bool) (i : ℕ)
    (h : (decide_rebalance lt bt dt i).2 = Reason.limit_trigger) :
    i ≠ 0 ∧ bt = false ∧ dt = false
      ∧ decide_rebalance lt bt dt i = (true, Reason.limit_trigger) := by
  cases lt <;> cases bt <;> cases dt <;> by_cases hi : i = 0 <;>
    simp_all [decide_rebalance]

/-- Claim C10: off the initialization step, the lent and borrowed
balances of the next state are exactly the current ones multiplied by
the per-step compounding factors, whether or not a rebalance of any
reason occurred (the rebalance block never touches them). -/
theorem hedge_compounding_frame (cfg : Config) (i : ℕ) (poolTick : ℤ)
    (swaps : List Swap) (s : Strat) (hi : i ≠ 0) :
    (step cfg i poolTick swaps s).1.lent = s.lent * cfg.lendFactor
    ∧ (step cfg i poolTick swaps s).1.borrowed = s.borrowed * cfg.borrowFactor := by
  simp only [step, hi, if_false, ite_false]
  split <;> simp

/-- Claim C9: when the step records no rebalance, the next state differs
from the current one only by the step's attributed fees folded into the
outside reserves and by compounding of the hedge balances; position
bounds and liquidities carry over unchanged. -/
theorem no_rebalance_frame (cfg : Config) (i : ℕ) (poolTick : ℤ)
    (swaps : List Swap) (s : Strat)
    (h : (step cfg i poolTick swaps s).2.1 = false) :
    (step cfg i poolTick swaps s).1 =
      { s with
          outsideX := s.outsideX + (gamma_fees s.baseLiquidity s.baseLower
            s.baseUpper s.limitLiquidity s.limitLower s.limitUpper swaps).1
          outsideY := s.outsideY + (gamma_fees s.baseLiquidity s.baseLower
            s.baseUpper s.limitLiquidity s.limitLower s.limitUpper swaps).2
          lent := s.lent * cfg.lendFactor
          borrowed := s.borrowed * cfg.borrowFactor } := by
  have hi : i ≠ 0 := by
    intro h0
    rw [h0] at h
    simp [step, decide_rebalance] at h
  simp only [step, hi, if_false, ite_false] at h ⊢
  rw [if_neg]
  intro hb
  rw [hb] at h
  exact Bool.true_eq_false.mp h

/-- Claim C6: when the recorded reason is limit_trigger, the next state's
base bound ticks equal the current ones — the base bounds are not
recomputed; only the limit position's bounds are re-derived by that
rebalance. -/
theorem limit_trigger_keeps_base_bounds (cfg : Config) (i : ℕ) (poolTick : ℤ)
    (swaps : List Swap) (s : Strat)
    (h : (step cfg i poolTick swaps s).2.2 = Reason.limit_trigger) :
    (step cfg i poolTick swaps s).1.baseLower = s.baseLower
    ∧ (step cfg i poolTick swaps s).1.baseUpper = s.baseUpper := by
  simp only [step] at h ⊢
  obtain ⟨hi, hbt, hdt, heq⟩ := decide_rebalance_limit_inv _ _ _ _ h
  rw [heq]
  have hre : ¬ (Reason.limit_trigger = Reason.base_trigger
      ∨ Reason.limit_trigger = Reason.delta
      ∨ Reason.limit_trigger = Reason.initialization) := by decide
  simp [rebalance_block, hre, hi]

/-- Witness state for the limit_trigger frame: pool tick 0 sits inside
the base trigger band [-10, 10) but outside the limit trigger band
[2, 3); liquidity and reserves are zero and borrowed is zero, so no
delta mismatch arises. -/
def sW6 : Strat :=
  { outsideX := 0, outsideY := 0, baseLower := -10, baseUpper := 10,
    baseLiquidity := 0, limitLower := 2, limitUpper := 3, limitLiquidity := 0,
    lent := 5, borrowed := 0 }

/-- Witness state for the no-rebalance frame: pool tick 0 sits inside
both trigger bands [-10, 10) and [-5, 5). -/
def sW9 : Strat :=
  { outsideX := 0, outsideY := 0, baseLower := -10, baseUpper := 10,
    baseLiquidity := 0, limitLower := -5, limitUpper := 5, limitLiquidity := 0,
    lent := 5, borrowed := 0 }

/-- Witness for C6: at step 1 of cfgW on sW6 the recorded reason is
limit_trigger and the next state's base bounds equal the current ones. -/
theorem limit_trigger_keeps_base_bounds_witness :
    (step cfgW 1 0 [] sW6).2.2 = Reason.limit_trigger
    ∧ (step cfgW 1 0 [] sW6).1.baseLower = sW6.baseLower
    ∧ (step cfgW 1 0 [] sW6).1.baseUpper = sW6.baseUpper := by
  have hstep : (step cfgW 1 0 [] sW6).2.2 = Reason.limit_trigger := by
    have h887 : (887272 : ℤ).fdiv 1 = 887272 := by decide
    have hneg : (-887272 : ℤ).fdiv 1 = -887272 := by decide
    simp [step, cfgW, sW6, get_quantities, gamma_fees, is_triggered,
      current_position, target_position, decide_rebalance,
      maxAlignedTick, minAlignedTick, h887, hneg, div_zero]
  exact ⟨hstep, (limit_trigger_keeps_base_bounds cfgW 1 0 [] sW6 hstep).1,
    (limit_trigger_keeps_base_bounds cfgW 1 0 [] sW6 hstep).2⟩

/-- Witness for C9: at step 1 of cfgW on sW9 no rebalance is recorded and
the next state is sW9 with only fee accrual (empty here) and hedge
compounding applied. -/
theorem no_rebalance_frame_witness :
    (step cfgW 1 0 [] sW9).2.1 = false
    ∧ (step cfgW 1 0 [] sW9).1 =
      { sW9 with
          outsideX := sW9.outsideX + (gamma_fees sW9.baseLiquidity sW9.baseLower
            sW9.baseUpper sW9.limitLiquidity sW9.limitLower sW9.limitUpper []).1
          outsideY := sW9.outsideY + (gamma_fees sW9.baseLiquidity sW9.baseLower
            sW9.baseUpper sW9.limitLiquidity sW9.limitLower sW9.limitUpper []).2
          lent := sW9.lent * cfgW.lendFactor
          borrowed := sW9.borrowed * cfgW.borrowFactor } := by
  have hstep : (step cfgW 1 0 [] sW9).2.1 = false := by
    have h887 : (887272 : ℤ).fdiv 1 = 887272 := by decide
    have hneg : (-887272 : ℤ).fdiv 1 = -887272 := by decide
    simp [step, cfgW, sW9, get_quantities, gamma_fees, is_triggered,
      current_position, target_position, decide_rebalance,
      maxAlignedTick, minAlignedTick, h887, hneg, div_zero]
  exact ⟨hstep, no_rebalance_frame cfgW 1 0 [] sW9 hstep⟩

/-- Witness for C10: at step 1 of cfgW on sW6 the hedge balances compound
by exactly the per-step factors. -/
theorem hedge_compounding_frame_witness :
    (1 : ℕ) ≠ 0
    ∧ (step cfgW 1 0 [] sW6).1.lent = sW6.lent * cfgW.lendFactor
    ∧ (step cfgW 1 0 [] sW6).1.borrowed = sW6.borrowed * cfgW.borrowFactor :=
  ⟨by decide, (hedge_compounding_frame cfgW 1 0 [] sW6 (by decide)).1,
    (hedge_compounding_frame cfgW 1 0 [] sW6 (by decide)).2⟩
